/-
Verification of the dochtml package documentation renderer
(internal/etl/dochtml/dochtml.go) against its design specification.

Shallow embedding conventions:
* Go strings are Lean `String`s; byte counts are modelled by `String.length`
  (the embedding treats one character as one byte, which is exact for the
  ASCII markup the template emits).
* `go/ast` nodes and declaration syntax trees are opaque tokens, modelled
  as `String`s: the renderer only passes them to injected hooks.
* The external Renderer collaborator (`render.Renderer`) is a record of
  injected hook functions; each hook may fail, modelling a template
  function returning an error during `Execute`.
* `html/template` execution is modelled as a function producing a list of
  `Piece`s (literal text, or an `id="…"` attribute emission reified as an
  `anchor` piece together with the template position kind that emitted it);
  flattening the pieces yields the written bytes.  Template execution
  stops at the first hook error, keeping the bytes written so far, exactly
  as `Execute` writes incrementally to the buffer.
* Go `int64` is modelled as `Int` (no overflow occurs at realistic sizes).
* The `limitBuffer` type is referenced by `Render` but its definition is
  not part of the provided sources; its write accounting is modelled from
  the spec (§4.2 BoundedSink).
-/
import Mathlib

set_option maxRecDepth 100000
set_option maxHeartbeats 1000000

namespace Dochtml

/-- A `doc.Example`: a runnable example attached to a declaration. -/
structure DocExample where
  Suffix : String
  Doc : String
  Code : String
  Comments : List String
  Output : String
  EmptyOutput : Bool
  Unordered : Bool
  deriving DecidableEq, Repr

/-- A `doc.Func`: a function or method with its examples. -/
structure DocFunc where
  Name : String
  Decl : String
  Doc : String
  Recv : String
  Examples : List DocExample
  deriving DecidableEq, Repr

/-- A `doc.Value`: a constant or variable group. -/
structure DocValue where
  Doc : String
  Decl : String
  deriving DecidableEq, Repr

/-- A `doc.Type`: a type with nested constants, variables, associated
functions, methods and its own examples. -/
structure DocType where
  Name : String
  Decl : String
  Doc : String
  Consts : List DocValue
  Vars : List DocValue
  Funcs : List DocFunc
  Methods : List DocFunc
  Examples : List DocExample
  deriving DecidableEq, Repr

/-- A `doc.Note` body. -/
structure DocNote where
  Body : String
  deriving DecidableEq, Repr

/-- A `doc.Package`: the module documentation model.  `Notes` is a Go map
from marker to note bodies; it is modelled as an association list (Go
`text/template` ranges over a map in sorted key order, which the template
embedding applies explicitly). -/
structure DocPackage where
  Name : String
  Doc : String
  Consts : List DocValue
  Vars : List DocValue
  Funcs : List DocFunc
  Types : List DocType
  Examples : List DocExample
  Notes : List (String × List DocNote)
  deriving DecidableEq, Repr

/-- `exampleID` from dochtml.go.  The Go switch has a `default` branch
containing `panic("unreachable")`; it is modelled by `none`, so totality
of the function is the statement that the panic is unreachable. -/
def exampleID (id suffix : String) : Option String :=
  if id = "" ∧ suffix = "" then some "example-package"
  else if id = "" ∧ suffix ≠ "" then some ("example-package-" ++ suffix)
  else if id ≠ "" ∧ suffix = "" then some ("example-" ++ id)
  else if id ≠ "" ∧ suffix ≠ "" then some ("example-" ++ id ++ "-" ++ suffix)
  else none

/-- The string value of `exampleID` as used by `collectExamples` (the
panic branch, proved unreachable below, is given a dummy value). -/
def exampleIDStr (id suffix : String) : String :=
  (exampleID id suffix).getD "unreachable"

/-- The internal `example` struct: one indexed example. -/
structure Example' where
  Ex : DocExample
  ID : String
  ParentID : String
  Suffix : String
  deriving DecidableEq, Repr

/-- Argument passed to the `render_code` hook: the result of the
`(*example).Code` method, either the raw code node or a
`printer.CommentedNode` pairing it with its comments. -/
inductive CodeNode where
  | plain : String → CodeNode
  | commented : String → List String → CodeNode
  deriving DecidableEq, Repr

/-- The `(*example).Code` method from dochtml.go. -/
def Example'.CodeArg (ex : Example') : CodeNode :=
  if ex.Ex.Comments.length > 0 then .commented ex.Ex.Code ex.Ex.Comments
  else .plain ex.Ex.Code

/-- The internal `examples` struct: the ordered example index and the
lookup-by-parent map (the Go map is modelled as a total function that is
`[]` outside the populated keys). -/
structure Examples' where
  Map : String → List Example'
  List : List Example'

/-- Build one indexed example as in each loop body of `collectExamples`. -/
def mkExample (id : String) (ex : DocExample) : Example' :=
  { Ex := ex, ID := exampleIDStr id ex.Suffix, ParentID := id, Suffix := ex.Suffix }

/-- One loop-body step of `collectExamples`: append the indexed example to
the running list and to the map entry of its parent. -/
def addExample (acc : List Example' × (String → List Example'))
    (id : String) (ex : DocExample) :
    List Example' × (String → List Example') :=
  let e := mkExample id ex
  (acc.1 ++ [e], fun k => if k = id then acc.2 k ++ [e] else acc.2 k)

/-- The accumulator of `collectExamples`: the list under construction and
the by-parent map. -/
abbrev ExAccum := List Example' × (String → List Example')

/-- One inner loop of `collectExamples`: index every example of one
declaration context `id`. -/
def addExamples (a : ExAccum) (id : String) (l : List DocExample) : ExAccum :=
  l.foldl (fun a ex => addExample a id ex) a

/-- The loop over a list of functions (top-level or associated with a
type): each function's examples under the function's name. -/
def addFuncs (a : ExAccum) (fs : List DocFunc) : ExAccum :=
  fs.foldl (fun a f => addExamples a f.Name f.Examples) a

/-- The loop over a type's methods: each method's examples under
`"<TypeName>.<MethodName>"`. -/
def addMethods (a : ExAccum) (tname : String) (ms : List DocFunc) : ExAccum :=
  ms.foldl (fun a m => addExamples a (tname ++ "." ++ m.Name) m.Examples) a

/-- The loop over the types: each type's own examples under the type's
name, then its associated functions' examples, then its methods'. -/
def addTypes (a : ExAccum) (ts : List DocType) : ExAccum :=
  ts.foldl (fun a t =>
    addMethods (addFuncs (addExamples a t.Name t.Examples) t.Funcs)
      t.Name t.Methods) a

/-- The accumulation phase of `collectExamples`: the nested loops of the
Go function (package examples, then each function's, then the types'), in
source order. -/
def collectAccum (p : DocPackage) : ExAccum :=
  addTypes (addFuncs (addExamples (([], fun _ => []) : ExAccum) "" p.Examples)
    p.Funcs) p.Types

/-- Lexicographic (code-point-wise) comparison of character lists: the
order Go's `<` on strings computes (byte-wise lexicographic order on
UTF-8 agrees with code-point order), as a non-strict comparison. -/
def charListLE : List Char → List Char → Bool
  | [], _ => true
  | _ :: _, [] => false
  | a :: as, b :: bs =>
    if a.toNat < b.toNat then true
    else if b.toNat < a.toNat then false
    else charListLE as bs

/-- Lexicographic string order, `≤` form. -/
def strLE (a b : String) : Prop := charListLE a.data b.data = true

instance (a b : String) : Decidable (strLE a b) :=
  inferInstanceAs (Decidable (charListLE a.data b.data = true))

/-- The key order of the `sort.SliceStable` call in `collectExamples`
(whose `less` function compares `ParentID` with Go string `<`), expressed
as the non-strict order the stable sort keys on. -/
def exLE (a b : Example') : Prop := strLE a.ParentID b.ParentID

instance : DecidableRel exLE := fun a b =>
  inferInstanceAs (Decidable (strLE a.ParentID b.ParentID))

/-- `collectExamples` from dochtml.go: accumulate in discovery order, then
stable-sort the list by `ParentID`.  The Go code's `sort.SliceStable` is
modelled by insertion sort, which computes the same stable sort of the
same key order. -/
def collectExamples (p : DocPackage) : Examples' :=
  let acc := collectAccum p
  { Map := acc.2, List := acc.1.insertionSort exLE }

/-- The template position kinds at which the `htmlPackage` template emits
an `id="…"` attribute. -/
inductive AnchorKind where
  | overview
  | index
  | examplesHdr
  | constantsHdr
  | variablesHdr
  | decl
  | exampleDetails
  | note
  deriving DecidableEq, Repr

/-- A unit of template output: literal text, or an `id="…"` attribute
together with the template position kind that emitted it. -/
inductive Piece where
  | text : String → Piece
  | anchor : AnchorKind → String → Piece
  deriving DecidableEq, Repr

/-- The bytes a piece contributes to the output stream. -/
def Piece.flatten : Piece → String
  | .text s => s
  | .anchor _ i => "id=\"" ++ i ++ "\""

/-- The full byte stream of a list of pieces. -/
def flattenPieces (l : List Piece) : String :=
  l.foldl (fun s p => s ++ p.flatten) ""

/-- The result of (a fragment of) template execution: the pieces written
so far and the error that stopped execution, if any. -/
structure ExecOut where
  pieces : List Piece
  err : Option String
  deriving Repr

/-- Sequence two template fragments: once an error has occurred, later
fragments are not executed (`Execute` stops at the first failing template
function, keeping the bytes already written). -/
def ExecOut.seq (a b : ExecOut) : ExecOut :=
  match a.err with
  | some _ => a
  | none => ⟨a.pieces ++ b.pieces, b.err⟩

/-- A fragment producing no output (a template conditional not taken). -/
def nilOut : ExecOut := ⟨[], none⟩

/-- A literal template text emission. -/
def txt (s : String) : ExecOut := ⟨[.text s], none⟩

/-- An `id="…"` attribute emission. -/
def anc (k : AnchorKind) (i : String) : ExecOut := ⟨[.anchor k i], none⟩

/-- Emission of a hook result: the hook's markup, or a stop on its error. -/
def hk : Except String String → ExecOut
  | .ok s => ⟨[.text s], none⟩
  | .error e => ⟨[], some e⟩

/-- Emission of `{{- $out := render_decl .Doc .Decl -}}{{- $out.Decl -}}
{{- $out.Doc -}}`: declaration markup then doc markup, or a stop. -/
def declOut : Except String (String × String) → ExecOut
  | .ok o => ⟨[.text o.1, .text o.2], none⟩
  | .error e => ⟨[], some e⟩

/-- Sequence a list of fragments in order. -/
def seqAll (l : List ExecOut) : ExecOut := l.foldl ExecOut.seq nilOut

/-- The external Renderer collaborator: the four rendering hooks bound
into the template as `render_synopsis`, `render_doc`, `render_decl` and
`render_code`.  Each may fail, modelling a template function error. -/
structure Hooks where
  Synopsis : String → Except String String
  DocHTML : String → Except String String
  DeclHTML : String → String → Except String (String × String)
  CodeHTML : CodeNode → Except String String

/-- The `sourceLink` closure built inside `Render` from
`opt.SourceLinkFunc`: a plain name when no link is available, otherwise a
source hyperlink. -/
def sourceLink (slf : String → String) (name node : String) : String :=
  let link := slf node
  if link = "" then name
  else "<a class=\"Documentation-source\" href=\"" ++ link ++ "\">" ++ name ++ "</a>"

/-- The `example` sub-template, applied to a list of indexed examples. -/
def exampleSection (r : Hooks) (l : List Example') : ExecOut :=
  seqAll (l.map (fun ex => seqAll [
    txt "<details ", anc .exampleDetails ex.ID, txt " class=\"example\">\n",
    txt ("<summary class=\"example-header\">Example" ++
      (if ex.Suffix ≠ "" then " (" ++ ex.Suffix ++ ")" else "") ++
      " <a href=\"#" ++ ex.ID ++ "\">¶</a></summary>\n"),
    txt "<div class=\"example-body\">\n",
    (if ex.Ex.Doc ≠ "" then (hk (r.DocHTML ex.Ex.Doc)).seq (txt "\n") else nilOut),
    txt "<p>Code:</p>\n",
    (hk (r.CodeHTML ex.CodeArg)).seq (txt "\n"),
    (if ex.Ex.Output ≠ "" ∨ ex.Ex.EmptyOutput then seqAll [
      txt ("<p>" ++ (if ex.Ex.Unordered then "Unordered output:" else "Output:") ++ "</p>\n"),
      txt ("<pre>\n" ++ ex.Ex.Output ++ "</pre>\n")] else nilOut),
    txt "</div>\n",
    txt "</details>\n",
    txt "\n"]))

/-- The top navigation list of the `htmlPackage` template. -/
def navSection (p : DocPackage) (exs : Examples') : ExecOut :=
  if p.Doc ≠ "" ∨ p.Consts ≠ [] ∨ p.Vars ≠ [] ∨ p.Funcs ≠ [] ∨
      p.Types ≠ [] ∨ exs.List ≠ [] then
    seqAll [
      txt "<ul>\n",
      (if p.Doc ≠ "" ∨ exs.Map "" ≠ [] then
        txt "<li><a href=\"#pkg-overview\">Overview</a></li>\n" else nilOut),
      (if p.Consts ≠ [] ∨ p.Vars ≠ [] ∨ p.Funcs ≠ [] ∨ p.Types ≠ [] then
        txt "<li><a href=\"#pkg-index\">Index</a></li>\n" else nilOut),
      (if exs.List ≠ [] then
        txt "<li><a href=\"#pkg-examples\">Examples</a></li>\n" else nilOut),
      txt "</ul>\n"]
  else nilOut

/-- The overview section: heading, package doc and package examples. -/
def overviewSection (r : Hooks) (p : DocPackage) (exs : Examples') : ExecOut :=
  if p.Doc ≠ "" ∨ exs.Map "" ≠ [] then
    seqAll [
      txt "<h2 ", anc .overview "pkg-overview",
      txt ">Overview <a href=\"#pkg-overview\">¶</a></h2>\n\n",
      (hk (r.DocHTML p.Doc)).seq (txt "\n"),
      exampleSection r (exs.Map "")]
  else nilOut

/-- One entry of the examples list: the example's anchor, labelled by its
`ParentID` (or `"Package"` when empty) and its suffix in parentheses. -/
def exampleEntry (e : Example') : String :=
  "<li><a href=\"#" ++ e.ID ++ "\">" ++
    (if e.ParentID = "" then "Package" else e.ParentID) ++
    (if e.Suffix ≠ "" then " (" ++ e.Suffix ++ ")" else "") ++ "</a></li>\n"

/-- The examples list (`pkg-examples`) block of the template. -/
def examplesListSection (exs : Examples') : ExecOut :=
  if exs.List ≠ [] then
    seqAll [
      txt "<h3 ", anc .examplesHdr "pkg-examples",
      txt ">Examples <a href=\"#pkg-examples\">¶</a></h3>\n",
      txt "<ul>\n",
      seqAll (exs.List.map (fun e => txt (exampleEntry e))),
      txt "</ul>\n"]
  else nilOut

/-- One function entry in the index section. -/
def indexEntryFunc (r : Hooks) (f : DocFunc) : ExecOut :=
  seqAll [txt ("<li><a href=\"#" ++ f.Name ++ "\">"),
    hk (r.Synopsis f.Decl), txt "</a></li>\n"]

/-- One type entry in the index section, with its nested associated
function and method entries. -/
def indexEntryType (r : Hooks) (t : DocType) : ExecOut :=
  seqAll [
    txt ("<li><a href=\"#" ++ t.Name ++ "\">type " ++ t.Name ++ "</a></li>\n"),
    (if t.Funcs ≠ [] then seqAll [
      txt "<ul>\n",
      seqAll (t.Funcs.map (indexEntryFunc r)),
      txt "\n</ul>\n"] else nilOut),
    (if t.Methods ≠ [] then seqAll [
      txt "<ul>\n",
      seqAll (t.Methods.map (fun m => seqAll [
        txt ("<li><a href=\"#" ++ t.Name ++ "." ++ m.Name ++ "\">"),
        hk (r.Synopsis m.Decl), txt "</a></li>\n"])),
      txt "\n</ul>\n"] else nilOut)]

/-- The key order on note markers used when the template ranges over the
`Notes` map. -/
def noteLE (a b : String × List DocNote) : Prop := strLE a.1 b.1

instance : DecidableRel noteLE := fun a b =>
  inferInstanceAs (Decidable (strLE a.1 b.1))

/-- The package's notes in the order the template visits them
(`text/template` ranges over a map in sorted key order). -/
def notesSorted (p : DocPackage) : List (String × List DocNote) :=
  p.Notes.insertionSort noteLE

/-- The index (`pkg-index`) heading and anchor list of the template. -/
def indexSection (r : Hooks) (p : DocPackage) : ExecOut :=
  seqAll [
    txt "<h2 ", anc .index "pkg-index",
    txt ">Index <a href=\"#pkg-index\">¶</a></h2>\n\n",
    txt "<ul>\n",
    (if p.Consts ≠ [] then
      txt "<li><a href=\"#pkg-constants\">Constants</a></li>\n" else nilOut),
    (if p.Vars ≠ [] then
      txt "<li><a href=\"#pkg-variables\">Variables</a></li>\n" else nilOut),
    seqAll (p.Funcs.map (indexEntryFunc r)),
    seqAll (p.Types.map (indexEntryType r)),
    seqAll ((notesSorted p).map (fun n =>
      txt ("<li><a href=\"#pkg-note-" ++ n.1 ++ "\">" ++ n.1 ++ "s</a></li>"))),
    txt "</ul>\n"]

/-- The full body of one constant or variable group. -/
def valueBody (r : Hooks) (v : DocValue) : ExecOut :=
  (declOut (r.DeclHTML v.Doc v.Decl)).seq (txt "\n")

/-- The full body of one function: anchored heading, declaration and doc,
then its examples looked up by name. -/
def funcBody (r : Hooks) (slf : String → String) (exs : Examples')
    (f : DocFunc) : ExecOut :=
  seqAll [
    txt "<h3 ", anc .decl f.Name,
    txt (">func " ++ sourceLink slf f.Name f.Decl ++
      " <a href=\"#" ++ f.Name ++ "\">¶</a></h3>\n"),
    declOut (r.DeclHTML f.Doc f.Decl),
    txt "\n",
    exampleSection r (exs.Map f.Name)]

/-- The full body of one method of a type: anchored heading keyed by
`"<TypeName>.<MethodName>"`, declaration and doc, then its examples. -/
def methodBody (r : Hooks) (slf : String → String) (exs : Examples')
    (tname : String) (m : DocFunc) : ExecOut :=
  seqAll [
    txt "<h3 ", anc .decl (tname ++ "." ++ m.Name),
    txt (">func (" ++ m.Recv ++ ") " ++ sourceLink slf m.Name m.Decl ++
      " <a href=\"#" ++ tname ++ "." ++ m.Name ++ "\">¶</a></h3>\n"),
    declOut (r.DeclHTML m.Doc m.Decl),
    txt "\n",
    exampleSection r (exs.Map (tname ++ "." ++ m.Name))]

/-- The full body of one type: anchored heading, declaration and doc, its
own examples, then nested constants, variables, associated functions and
methods. -/
def typeBody (r : Hooks) (slf : String → String) (exs : Examples')
    (t : DocType) : ExecOut :=
  seqAll [
    txt "<h3 ", anc .decl t.Name,
    txt (">type " ++ sourceLink slf t.Name t.Decl ++
      " <a href=\"#" ++ t.Name ++ "\">¶</a></h3>\n"),
    declOut (r.DeclHTML t.Doc t.Decl),
    txt "\n",
    exampleSection r (exs.Map t.Name),
    seqAll (t.Consts.map (valueBody r)),
    seqAll (t.Vars.map (valueBody r)),
    seqAll (t.Funcs.map (funcBody r slf exs)),
    seqAll (t.Methods.map (methodBody r slf exs t.Name))]

/-- The declarations block of the template, guarded by
`if or .Consts .Vars .Funcs .Types`: the index section, the examples
list, then the constant, variable, function and type bodies.  Note that
the examples list is inside this guard in the template source. -/
def declSection (r : Hooks) (slf : String → String) (p : DocPackage)
    (exs : Examples') : ExecOut :=
  if p.Consts ≠ [] ∨ p.Vars ≠ [] ∨ p.Funcs ≠ [] ∨ p.Types ≠ [] then
    seqAll [
      indexSection r p,
      examplesListSection exs,
      (if p.Consts ≠ [] then seqAll [txt "<h3 ",
        anc .constantsHdr "pkg-constants",
        txt ">Constants <a href=\"#pkg-constants\">¶</a></h3>\n"] else nilOut),
      seqAll (p.Consts.map (valueBody r)),
      (if p.Vars ≠ [] then seqAll [txt "<h3 ",
        anc .variablesHdr "pkg-variables",
        txt ">Variables <a href=\"#pkg-variables\">¶</a></h3>\n"] else nilOut),
      seqAll (p.Vars.map (valueBody r)),
      seqAll (p.Funcs.map (funcBody r slf exs)),
      seqAll (p.Types.map (typeBody r slf exs))]
  else nilOut

/-- The body of one notes section. -/
def noteBody (r : Hooks) (n : String × List DocNote) : ExecOut :=
  seqAll [
    txt "<h2 ", anc .note ("pkg-note-" ++ n.1),
    txt (">" ++ n.1 ++ "s <a href=\"#pkg-note-" ++ n.1 ++ "\">¶</a></h2>\n"),
    txt "<ul style=\"padding-left: 20px; list-style: initial;\">\n",
    seqAll (n.2.map (fun v => seqAll [
      txt "<li style=\"margin: 6px 0 6px 0;\">",
      hk (r.DocHTML v.Body), txt "</li>"])),
    txt "</ul>\n"]

/-- The trailing notes sections of the template, one per marker. -/
def notesSection (r : Hooks) (p : DocPackage) : ExecOut :=
  seqAll ((notesSorted p).map (noteBody r))

/-- Execution of the whole `htmlPackage` template on a package and its
example index, with hooks `r` and raw source-link resolver `slf`. -/
def htmlPackageExec (r : Hooks) (slf : String → String) (p : DocPackage)
    (exs : Examples') : ExecOut :=
  seqAll [navSection p exs, overviewSection r p exs,
    declSection r slf p exs, notesSection r p]

/-- `RenderOptions` from dochtml.go. -/
structure RenderOptions where
  SourceLinkFunc : String → String
  Limit : Int

/-- The two failure kinds of `Render`: `tooLarge` models the error chain
wrapping `ErrTooLarge`; `renderFailure` models the generic
`fmt.Errorf("dochtml.Render: %v", err)` wrapping. -/
inductive RenderError where
  | tooLarge
  | renderFailure : String → RenderError
  deriving DecidableEq, Repr

/-- The entry-point suppression copy in `Render`: a copy of the package
with top-level declarations and examples cleared (the original value is
untouched). -/
def clearForMain (p : DocPackage) : DocPackage :=
  { p with Consts := [], Types := [], Vars := [], Funcs := [], Examples := [] }

/-- The package `Render` actually renders: the cleared copy for a
command (`Name = "main"`), the input itself otherwise. -/
def renderedPackage (p : DocPackage) : DocPackage :=
  if p.Name = "main" then clearForMain p else p

/-- The effective byte ceiling: `opt.Limit`, or ten megabytes when the
caller supplies zero. -/
def renderLimit (opt : RenderOptions) : Int :=
  if opt.Limit = 0 then 10 * 1000000 else opt.Limit

/-- The template execution performed by one `Render` call. -/
def renderExec (r : Hooks) (p : DocPackage) (opt : RenderOptions) : ExecOut :=
  htmlPackageExec r opt.SourceLinkFunc (renderedPackage p)
    (collectExamples (renderedPackage p))

/-- Modelled from the spec: the `limitBuffer` type referenced by `Render`
is not among the provided sources; per §4.2 (BoundedSink) every write is
accepted and decrements `Remain` by the written length, so the final
`Remain` is the ceiling minus the total bytes written. -/
def renderRemain (r : Hooks) (p : DocPackage) (opt : RenderOptions) : Int :=
  renderLimit opt - ((flattenPieces (renderExec r p opt).pieces).length : Int)

/-- `Render` from dochtml.go: normalize the input, execute the template
into the bounded buffer, then resolve the outcome — ceiling exceedance
first, then a hook error, else the accumulated bytes. -/
def Render (r : Hooks) (p : DocPackage) (opt : RenderOptions) :
    Except RenderError String :=
  let out := renderExec r p opt
  if renderRemain r p opt < 0 then .error .tooLarge
  else match out.err with
    | some e => .error (.renderFailure e)
    | none => .ok (flattenPieces out.pieces)

/-- The discovery-order sequence of indexed examples: the concatenation,
in traversal order, of the package-level examples, the functions'
examples, and for each type its own examples, its associated functions'
examples and its methods' examples. -/
def discoveredExamples (p : DocPackage) : List Example' :=
  p.Examples.map (mkExample "") ++
  p.Funcs.flatMap (fun f => f.Examples.map (mkExample f.Name)) ++
  p.Types.flatMap (fun t =>
    t.Examples.map (mkExample t.Name) ++
    t.Funcs.flatMap (fun f => f.Examples.map (mkExample f.Name)) ++
    t.Methods.flatMap (fun m =>
      m.Examples.map (mkExample (t.Name ++ "." ++ m.Name))))

/-- The anchor kind a piece carries, if it is an anchor emission. -/
def Piece.kindOf : Piece → Option AnchorKind
  | .text _ => none
  | .anchor k _ => some k

/- Concrete data for witnesses and counterexamples. -/

/-- Hooks whose rendering functions always succeed. -/
def hooksOK : Hooks where
  Synopsis := fun d => .ok ("syn " ++ d)
  DocHTML := fun d => .ok ("doc " ++ d)
  DeclHTML := fun doc dl => .ok ("decl " ++ dl, "docp " ++ doc)
  CodeHTML := fun _ => .ok "code"

/-- Hooks whose doc renderer fails. -/
def hooksBadDoc : Hooks where
  Synopsis := fun d => .ok ("syn " ++ d)
  DocHTML := fun _ => .error "doc hook failed"
  DeclHTML := fun doc dl => .ok ("decl " ++ dl, "docp " ++ doc)
  CodeHTML := fun _ => .ok "code"

/-- Options with no source links and the default size limit. -/
def optDefault : RenderOptions := { SourceLinkFunc := fun _ => "", Limit := 0 }

/-- A runnable example with no suffix and no output. -/
def dexPlain : DocExample where
  Suffix := ""
  Doc := ""
  Code := "code0"
  Comments := []
  Output := ""
  EmptyOutput := false
  Unordered := false

/-- A package with one package-level example and no declarations. -/
def pkgExamplesOnly : DocPackage where
  Name := "p"
  Doc := ""
  Consts := []
  Vars := []
  Funcs := []
  Types := []
  Examples := [dexPlain]
  Notes := []

/-- A function `New` carrying one plain example. -/
def funcNew : DocFunc where
  Name := "New"
  Decl := "fdecl"
  Doc := "fdoc"
  Recv := ""
  Examples := [dexPlain]

/-- A method `Do` of type `Ring`, carrying one plain example. -/
def methodDo : DocFunc where
  Name := "Do"
  Decl := "mdecl"
  Doc := "mdoc"
  Recv := "r"
  Examples := [dexPlain]

/-- A type `Ring` with one method and one own example. -/
def typeRing : DocType where
  Name := "Ring"
  Decl := "tdecl"
  Doc := "tdoc"
  Consts := []
  Vars := []
  Funcs := []
  Methods := [methodDo]
  Examples := [dexPlain]

/-- A command (`Name = "main"`) package with non-empty declarations and
examples everywhere. -/
def pkgMain : DocPackage where
  Name := "main"
  Doc := "overview"
  Consts := [{ Doc := "cdoc", Decl := "cdecl" }]
  Vars := [{ Doc := "vdoc", Decl := "vdecl" }]
  Funcs := [funcNew]
  Types := [typeRing]
  Examples := [dexPlain]
  Notes := [("BUG", [{ Body := "a bug" }])]

/-- A library package with one function carrying two examples. -/
def pkgFuncExample : DocPackage where
  Name := "p"
  Doc := "overview"
  Consts := []
  Vars := []
  Funcs := [{ funcNew with Examples := [dexPlain, { dexPlain with Suffix := "second" }] }]
  Types := []
  Examples := [dexPlain]
  Notes := []

/-- The discovery-order triple of the stable-sort test: two examples with
parent `"Z"` around one package-level example. -/
def exZa : Example' := mkExample "Z" { dexPlain with Suffix := "a" }

/-- The package-level middle element of the stable-sort test. -/
def exPkgB : Example' := mkExample "" { dexPlain with Suffix := "b" }

/-- The second parent-`"Z"` element of the stable-sort test. -/
def exZc : Example' := mkExample "Z" { dexPlain with Suffix := "c" }

/- Helper lemmas about the template execution monad. -/

theorem mem_seq_pieces {a b : ExecOut} {pc : Piece}
    (h : pc ∈ (a.seq b).pieces) : pc ∈ a.pieces ∨ pc ∈ b.pieces := by
  cases ha : a.err with
  | some e => simp [ExecOut.seq, ha] at h; exact .inl h
  | none => simp [ExecOut.seq, ha] at h; exact h

theorem foldl_seq_mem {l : List ExecOut} {pc : Piece} :
    ∀ acc : ExecOut, pc ∈ (l.foldl ExecOut.seq acc).pieces →
    pc ∈ acc.pieces ∨ ∃ o ∈ l, pc ∈ o.pieces := by
  induction l with
  | nil => intro acc h; exact .inl h
  | cons a t ih =>
    intro acc h
    rcases ih (acc.seq a) h with h' | ⟨o, ho, hpc⟩
    · rcases mem_seq_pieces h' with h1 | h2
      · exact .inl h1
      · exact .inr ⟨a, by simp, h2⟩
    · exact .inr ⟨o, by simp [ho], hpc⟩

theorem mem_seqAll {l : List ExecOut} {pc : Piece}
    (h : pc ∈ (seqAll l).pieces) : ∃ o ∈ l, pc ∈ o.pieces := by
  rcases foldl_seq_mem nilOut h with h' | h''
  · simp [nilOut] at h'
  · exact h''

theorem seq_err_none {a b : ExecOut} (h : (a.seq b).err = none) :
    a.err = none ∧ b.err = none ∧ (a.seq b).pieces = a.pieces ++ b.pieces := by
  cases ha : a.err with
  | some e => simp [ExecOut.seq, ha] at h
  | none => simp [ExecOut.seq, ha] at h ⊢; exact h

theorem foldl_seq_err_none {l : List ExecOut} :
    ∀ acc : ExecOut, (l.foldl ExecOut.seq acc).err = none →
    acc.err = none ∧ (∀ o ∈ l, o.err = none) ∧
    (l.foldl ExecOut.seq acc).pieces =
      acc.pieces ++ l.flatMap (fun o => o.pieces) := by
  induction l with
  | nil => intro acc h; exact ⟨h, by simp, by simp⟩
  | cons a t ih =>
    intro acc h
    obtain ⟨hsa, hts, hps⟩ := ih (acc.seq a) h
    obtain ⟨ha, hb, hseqp⟩ := seq_err_none hsa
    refine ⟨ha, ?_, ?_⟩
    · intro o ho
      rcases List.mem_cons.mp ho with rfl | ho'
      · exact hb
      · exact hts o ho'
    · rw [List.foldl_cons, hps, hseqp]; simp

theorem seqAll_err_none {l : List ExecOut} (h : (seqAll l).err = none) :
    (∀ o ∈ l, o.err = none) ∧
    (seqAll l).pieces = l.flatMap (fun o => o.pieces) := by
  obtain ⟨-, h2, h3⟩ := foldl_seq_err_none nilOut h
  exact ⟨h2, by simpa [nilOut] using h3⟩

/- Characterization of the accumulation phase of `collectExamples`. -/

theorem addExamples_fst (id : String) (l : List DocExample) :
    ∀ a : ExAccum, (addExamples a id l).1 = a.1 ++ l.map (mkExample id) := by
  induction l with
  | nil => intro a; simp [addExamples]
  | cons x t ih =>
    intro a
    show (addExamples (addExample a id x) id t).1 = _
    rw [ih]; simp [addExample]

theorem addFuncs_fst (fs : List DocFunc) :
    ∀ a : ExAccum, (addFuncs a fs).1 =
      a.1 ++ fs.flatMap (fun f => f.Examples.map (mkExample f.Name)) := by
  induction fs with
  | nil => intro a; simp [addFuncs]
  | cons f t ih =>
    intro a
    show (addFuncs (addExamples a f.Name f.Examples) t).1 = _
    rw [ih, addExamples_fst]; simp

theorem addMethods_fst (tname : String) (ms : List DocFunc) :
    ∀ a : ExAccum, (addMethods a tname ms).1 =
      a.1 ++ ms.flatMap (fun m =>
        m.Examples.map (mkExample (tname ++ "." ++ m.Name))) := by
  induction ms with
  | nil => intro a; simp [addMethods]
  | cons m t ih =>
    intro a
    show (addMethods (addExamples a (tname ++ "." ++ m.Name) m.Examples)
      tname t).1 = _
    rw [ih, addExamples_fst]; simp

theorem addTypes_fst (ts : List DocType) :
    ∀ a : ExAccum, (addTypes a ts).1 =
      a.1 ++ ts.flatMap (fun t =>
        t.Examples.map (mkExample t.Name) ++
        t.Funcs.flatMap (fun f => f.Examples.map (mkExample f.Name)) ++
        t.Methods.flatMap (fun m =>
          m.Examples.map (mkExample (t.Name ++ "." ++ m.Name)))) := by
  induction ts with
  | nil => intro a; simp [addTypes]
  | cons t rest ih =>
    intro a
    show (addTypes (addMethods (addFuncs (addExamples a t.Name t.Examples)
      t.Funcs) t.Name t.Methods) rest).1 = _
    rw [ih, addMethods_fst, addFuncs_fst, addExamples_fst]; simp

theorem collectAccum_fst (p : DocPackage) :
    (collectAccum p).1 = discoveredExamples p := by
  rw [collectAccum, addTypes_fst, addFuncs_fst, addExamples_fst,
    discoveredExamples]
  simp

/-- C1: for every pair of strings `(parentID, suffix)`, `exampleID` is a
total function returning exactly the four-case table of §4.1:
`"example-package"` when both are empty, `"example-package-" ++ suffix`
when only the parent is empty, `"example-" ++ parentID` when only the
suffix is empty, and `"example-" ++ parentID ++ "-" ++ suffix` when both
are non-empty. -/
theorem exampleID_four_cases (id suffix : String) :
    (∃ s, exampleID id suffix = some s) ∧
    (id = "" → suffix = "" → exampleID id suffix = some "example-package") ∧
    (id = "" → suffix ≠ "" →
      exampleID id suffix = some ("example-package-" ++ suffix)) ∧
    (id ≠ "" → suffix = "" →
      exampleID id suffix = some ("example-" ++ id)) ∧
    (id ≠ "" → suffix ≠ "" →
      exampleID id suffix = some ("example-" ++ id ++ "-" ++ suffix)) := by
  refine ⟨?_, ?_, ?_, ?_, ?_⟩
  · by_cases h1 : id = "" <;> by_cases h2 : suffix = "" <;>
      simp [exampleID, h1, h2]
  all_goals intro h1 h2; simp [exampleID, h1, h2]

/-- Witness for C1: the four cases at concrete inputs. -/
theorem exampleID_four_cases_witness :
    exampleID "" "" = some "example-package" ∧
    exampleID "" "s" = some "example-package-s" ∧
    exampleID "Ring" "" = some "example-Ring" ∧
    exampleID "Ring" "s" = some "example-Ring-s" :=
  ⟨(exampleID_four_cases "" "").2.1 rfl rfl,
   (exampleID_four_cases "" "s").2.2.1 rfl (by decide),
   (exampleID_four_cases "Ring" "").2.2.2.1 (by decide) rfl,
   (exampleID_four_cases "Ring" "s").2.2.2.2 (by decide) (by decide)⟩

/-- C10: `exampleID` never reaches the `panic("unreachable")` default
branch: for every pair of strings exactly one of the four switch cases
applies, so the function totally returns a string. -/
theorem exampleID_never_panics (id suffix : String) :
    (exampleID id suffix).isSome = true := by
  by_cases h1 : id = "" <;> by_cases h2 : suffix = "" <;>
    simp [exampleID, h1, h2]

/- The key order is reflexive, total and transitive. -/

theorem charListLE_refl (as : List Char) : charListLE as as = true := by
  induction as with
  | nil => rfl
  | cons a t ih => simp [charListLE, ih]

theorem charListLE_total :
    ∀ as bs : List Char, charListLE as bs = true ∨ charListLE bs as = true
  | [], _ => .inl rfl
  | _ :: _, [] => .inr rfl
  | a :: as, b :: bs => by
    by_cases h1 : a.toNat < b.toNat
    · left; simp [charListLE, h1]
    · by_cases h2 : b.toNat < a.toNat
      · right; simp [charListLE, h1, h2]
      · have := charListLE_total as bs
        simpa [charListLE, h1, h2] using this

theorem charListLE_trans :
    ∀ as bs cs : List Char, charListLE as bs = true →
      charListLE bs cs = true → charListLE as cs = true
  | [], _, _ => fun _ _ => rfl
  | _ :: _, [], _ => fun h _ => by simp [charListLE] at h
  | _ :: _, _ :: _, [] => fun _ h => by simp [charListLE] at h
  | a :: as, b :: bs, c :: cs => fun h1 h2 => by
    simp only [charListLE] at h1 h2 ⊢
    rcases Nat.lt_trichotomy a.toNat b.toNat with hab | hab | hab <;>
      rcases Nat.lt_trichotomy b.toNat c.toNat with hbc | hbc | hbc
    · simp [Nat.lt_trans hab hbc]
    · simp [show a.toNat < c.toNat by omega]
    · rw [if_neg (by omega), if_pos hbc] at h2; simp at h2
    · simp [show a.toNat < c.toNat by omega]
    · rw [if_neg (by omega), if_neg (by omega)] at h1
      rw [if_neg (by omega), if_neg (by omega)] at h2
      rw [if_neg (by omega), if_neg (by omega)]
      exact charListLE_trans as bs cs h1 h2
    · rw [if_neg (by omega), if_pos hbc] at h2; simp at h2
    · rw [if_neg (by omega), if_pos hab] at h1; simp at h1
    · rw [if_neg (by omega), if_pos hab] at h1; simp at h1
    · rw [if_neg (by omega), if_pos hab] at h1; simp at h1

/-- C2: the final example list is the stable sort of the discovery-order
sequence by `ParentID` ascending (lexicographic): it is sorted by the key
order, it is a permutation of the discovery sequence, entries with equal
`ParentID` retain their relative discovery order (the filter to any one
key is unchanged), and on the discovery order
`[A(parent "Z"), B(parent ""), C(parent "Z")]` the stable sort yields
`[B, A, C]`. -/
theorem collectExamples_stable_sort (p : DocPackage) :
    (collectExamples p).List.Pairwise exLE ∧
    (collectExamples p).List.Perm (discoveredExamples p) ∧
    (∀ pid, (collectExamples p).List.filter (fun e => e.ParentID = pid) =
      (discoveredExamples p).filter (fun e => e.ParentID = pid)) ∧
    ([exZa, exPkgB, exZc].insertionSort exLE) = [exPkgB, exZa, exZc] := by
  haveI : IsTotal Example' exLE := ⟨fun a b => charListLE_total _ _⟩
  haveI : IsTrans Example' exLE := ⟨fun _ _ _ h h' => charListLE_trans _ _ _ h h'⟩
  have hlist : (collectExamples p).List =
      (discoveredExamples p).insertionSort exLE := by
    show ((collectAccum p).1.insertionSort exLE) = _
    rw [collectAccum_fst]
  refine ⟨?_, ?_, ?_, by decide⟩
  · rw [hlist]; exact List.sorted_insertionSort exLE _
  · rw [hlist]; exact List.perm_insertionSort exLE _
  · intro pid
    rw [hlist]
    have hcpw : ((discoveredExamples p).filter
        (fun e => e.ParentID = pid)).Pairwise exLE := by
      apply List.pairwise_of_forall_mem_list
      intro a ha b hb
      have ha' : a.ParentID = pid := by
        simpa using (List.mem_filter.mp ha).2
      have hb' : b.ParentID = pid := by
        simpa using (List.mem_filter.mp hb).2
      show charListLE a.ParentID.data b.ParentID.data = true
      rw [ha', hb']
      exact charListLE_refl _
    have hcsub := List.sublist_insertionSort hcpw
      (List.filter_sublist (discoveredExamples p))
    have hperm := (List.perm_insertionSort exLE
      (discoveredExamples p)).filter (fun e => decide (e.ParentID = pid))
    have hsubf : List.Sublist
        ((discoveredExamples p).filter (fun e => e.ParentID = pid))
        (((discoveredExamples p).insertionSort exLE).filter
          (fun e => e.ParentID = pid)) := by
      have h2 := hcsub.filter (fun e => decide (e.ParentID = pid))
      rwa [List.filter_eq_self.mpr
        (fun a ha => (List.mem_filter.mp ha).2)] at h2
    exact (hsubf.eq_of_length hperm.length_eq.symm).symm

/-- C6: the discovery traversal of `collectExamples` visits package-level
examples first (parent `""`), then each function's examples (parent the
function's name), then for each type its own examples (parent the type's
name), then its associated functions' examples (parent the bare function
name), then its methods' examples (parent `"<TypeName>.<MethodName>"`),
in that nesting. -/
theorem collectAccum_discovery (p : DocPackage) :
    (collectAccum p).1 =
      p.Examples.map (mkExample "") ++
      p.Funcs.flatMap (fun f => f.Examples.map (mkExample f.Name)) ++
      p.Types.flatMap (fun t =>
        t.Examples.map (mkExample t.Name) ++
        t.Funcs.flatMap (fun f => f.Examples.map (mkExample f.Name)) ++
        t.Methods.flatMap (fun m =>
          m.Examples.map (mkExample (t.Name ++ "." ++ m.Name)))) ∧
    (∀ i ex, (mkExample i ex).ParentID = i ∧
      (mkExample i ex).Suffix = ex.Suffix ∧
      (mkExample i ex).ID = exampleIDStr i ex.Suffix) :=
  ⟨collectAccum_fst p, fun _ _ => ⟨rfl, rfl, rfl⟩⟩

/-- C3: `Render` resolves its outcome with fixed precedence: a negative
buffer remainder fails with the oversized-output error even when the
template execution also returned an error; otherwise a hook error fails
with a generic rendering failure wrapping it; otherwise the accumulated
bytes are returned; and a failing call returns no bytes. -/
theorem Render_outcome_precedence (r : Hooks) (p : DocPackage)
    (opt : RenderOptions) :
    (renderRemain r p opt < 0 → Render r p opt = .error .tooLarge) ∧
    (¬ renderRemain r p opt < 0 → ∀ e, (renderExec r p opt).err = some e →
      Render r p opt = .error (.renderFailure e)) ∧
    (¬ renderRemain r p opt < 0 → (renderExec r p opt).err = none →
      Render r p opt = .ok (flattenPieces (renderExec r p opt).pieces)) ∧
    (∀ er, Render r p opt = .error er → ∀ bs, Render r p opt ≠ .ok bs) := by
  have hR : Render r p opt =
      if renderRemain r p opt < 0 then (.error .tooLarge : Except RenderError String)
      else match (renderExec r p opt).err with
        | some e => .error (.renderFailure e)
        | none => .ok (flattenPieces (renderExec r p opt).pieces) := rfl
  refine ⟨?_, ?_, ?_, ?_⟩
  · intro h; rw [hR, if_pos h]
  · intro h e he; rw [hR, if_neg h, he]
  · intro h he; rw [hR, if_neg h, he]
  · intro er her bs hbs; rw [her] at hbs; cases hbs

/-- Witness for C3: with a failing doc hook and a one-byte ceiling the
oversized-output error takes precedence; with the default ceiling the
hook error surfaces as a rendering failure. -/
theorem Render_outcome_precedence_witness :
    Render hooksBadDoc pkgFuncExample { SourceLinkFunc := fun _ => "", Limit := 1 } =
      .error .tooLarge ∧
    Render hooksBadDoc pkgFuncExample optDefault =
      .error (.renderFailure "doc hook failed") :=
  ⟨(Render_outcome_precedence hooksBadDoc pkgFuncExample
      { SourceLinkFunc := fun _ => "", Limit := 1 }).1 (by decide),
   (Render_outcome_precedence hooksBadDoc pkgFuncExample optDefault).2.1
      (by decide) "doc hook failed" (by decide)⟩

/-- C4: output of exactly `limit` bytes succeeds, output of `limit + 1`
bytes or more fails with the oversized-output error (exceedance is
strict), and a zero limit behaves exactly as the default of ten
megabytes. -/
theorem Render_limit_boundary (r : Hooks) (p : DocPackage)
    (opt : RenderOptions) :
    (opt.Limit ≠ 0 → (renderExec r p opt).err = none →
      ((flattenPieces (renderExec r p opt).pieces).length : Int) = opt.Limit →
      Render r p opt = .ok (flattenPieces (renderExec r p opt).pieces)) ∧
    (opt.Limit ≠ 0 →
      opt.Limit + 1 ≤ ((flattenPieces (renderExec r p opt).pieces).length : Int) →
      Render r p opt = .error .tooLarge) ∧
    (∀ slf, Render r p { SourceLinkFunc := slf, Limit := 0 } =
      Render r p { SourceLinkFunc := slf, Limit := 10 * 1000000 }) := by
  have hlim : opt.Limit ≠ 0 → renderLimit opt = opt.Limit := fun h => if_neg h
  refine ⟨?_, ?_, ?_⟩
  · intro h0 he hlen
    have hrem : ¬ renderRemain r p opt < 0 := by
      unfold renderRemain; rw [hlim h0, hlen]; omega
    exact (Render_outcome_precedence r p opt).2.2.1 hrem he
  · intro h0 hlen
    have hrem : renderRemain r p opt < 0 := by
      unfold renderRemain; rw [hlim h0]; omega
    exact (Render_outcome_precedence r p opt).1 hrem
  · intro slf
    have hrem : renderRemain r p { SourceLinkFunc := slf, Limit := 0 } =
        renderRemain r p { SourceLinkFunc := slf, Limit := 10 * 1000000 } := by
      unfold renderRemain
      have hlim0 : renderLimit { SourceLinkFunc := slf, Limit := 0 } =
          renderLimit { SourceLinkFunc := slf, Limit := 10 * 1000000 } := by
        simp [renderLimit]
      rw [hlim0]
      rfl
    have h1 : Render r p { SourceLinkFunc := slf, Limit := 0 } =
        if renderRemain r p { SourceLinkFunc := slf, Limit := 0 } < 0 then
          (.error .tooLarge : Except RenderError String)
        else match (renderExec r p { SourceLinkFunc := slf, Limit := 0 }).err with
          | some e => .error (.renderFailure e)
          | none => .ok (flattenPieces
              (renderExec r p { SourceLinkFunc := slf, Limit := 0 }).pieces) := rfl
    have h2 : Render r p { SourceLinkFunc := slf, Limit := 10 * 1000000 } =
        if renderRemain r p { SourceLinkFunc := slf, Limit := 10 * 1000000 } < 0 then
          (.error .tooLarge : Except RenderError String)
        else match (renderExec r p { SourceLinkFunc := slf, Limit := 10 * 1000000 }).err with
          | some e => .error (.renderFailure e)
          | none => .ok (flattenPieces
              (renderExec r p { SourceLinkFunc := slf, Limit := 10 * 1000000 }).pieces) := rfl
    have hexec : renderExec r p { SourceLinkFunc := slf, Limit := 0 } =
        renderExec r p { SourceLinkFunc := slf, Limit := 10 * 1000000 } := rfl
    rw [h1, h2, hrem, hexec]

/-- Witness for C4: a concrete render producing 1208 bytes succeeds at
limit 1208, fails at limit 1207, and the zero limit equals the default. -/
theorem Render_limit_boundary_witness :
    Render hooksOK pkgFuncExample { SourceLinkFunc := fun _ => "", Limit := 1208 } =
      .ok (flattenPieces (renderExec hooksOK pkgFuncExample
        { SourceLinkFunc := fun _ => "", Limit := 1208 }).pieces) ∧
    Render hooksOK pkgFuncExample { SourceLinkFunc := fun _ => "", Limit := 1207 } =
      .error .tooLarge ∧
    Render hooksOK pkgFuncExample { SourceLinkFunc := fun _ => "", Limit := 0 } =
      Render hooksOK pkgFuncExample { SourceLinkFunc := fun _ => "", Limit := 10 * 1000000 } :=
  ⟨(Render_limit_boundary hooksOK pkgFuncExample
      { SourceLinkFunc := fun _ => "", Limit := 1208 }).1
      (by decide) (by decide) (by decide),
   (Render_limit_boundary hooksOK pkgFuncExample
      { SourceLinkFunc := fun _ => "", Limit := 1207 }).2.1
      (by decide) (by decide),
   (Render_limit_boundary hooksOK pkgFuncExample
      { SourceLinkFunc := fun _ => "", Limit := 0 }).2.2 (fun _ => "")⟩

/-- C8: `Render` is deterministic — two calls with the same model, the
same options and the same hooks produce the same bytes and the same
error outcome. -/
theorem Render_deterministic (r r' : Hooks) (p p' : DocPackage)
    (opt opt' : RenderOptions) (h1 : r = r') (h2 : p = p') (h3 : opt = opt') :
    Render r p opt = Render r' p' opt' := by
  subst h1; subst h2; subst h3; rfl

/-- Witness for C8: two identical calls agree at a concrete input. -/
theorem Render_deterministic_witness :
    Render hooksOK pkgFuncExample optDefault =
      Render hooksOK pkgFuncExample optDefault :=
  Render_deterministic hooksOK hooksOK pkgFuncExample pkgFuncExample
    optDefault optDefault rfl rfl rfl

/- Shape lemmas for the pieces emitted by each template fragment. -/

theorem txt_pieces {s : String} {pc : Piece} (h : pc ∈ (txt s).pieces) :
    pc = .text s := by
  simpa [txt] using h

theorem anc_pieces {k : AnchorKind} {i : String} {pc : Piece}
    (h : pc ∈ (anc k i).pieces) : pc = .anchor k i := by
  simpa [anc] using h

theorem hk_pieces {x : Except String String} {pc : Piece}
    (h : pc ∈ (hk x).pieces) : ∃ s, pc = .text s := by
  cases x with
  | ok s => exact ⟨s, by simpa [hk] using h⟩
  | error e => simp [hk] at h

theorem declOut_pieces {x : Except String (String × String)} {pc : Piece}
    (h : pc ∈ (declOut x).pieces) : ∃ s, pc = .text s := by
  cases x with
  | ok o =>
    simp [declOut] at h
    rcases h with h | h
    · exact ⟨o.1, h⟩
    · exact ⟨o.2, h⟩
  | error e => simp [declOut] at h

theorem ite_pieces {c : Prop} [Decidable c] {A B : ExecOut} {pc : Piece}
    (h : pc ∈ (if c then A else B).pieces) :
    (c ∧ pc ∈ A.pieces) ∨ (¬ c ∧ pc ∈ B.pieces) := by
  by_cases hc : c
  · rw [if_pos hc] at h; exact .inl ⟨hc, h⟩
  · rw [if_neg hc] at h; exact .inr ⟨hc, h⟩

theorem exampleSection_pieces {r : Hooks} {l : List Example'} {pc : Piece}
    (h : pc ∈ (exampleSection r l).pieces) :
    pc.kindOf = none ∨ ∃ e ∈ l, pc = .anchor .exampleDetails e.ID := by
  obtain ⟨o, ho, hpc⟩ := mem_seqAll h
  rw [List.mem_map] at ho
  obtain ⟨e, hel, rfl⟩ := ho
  obtain ⟨o2, ho2, hpc2⟩ := mem_seqAll hpc
  simp only [List.mem_cons, List.not_mem_nil, or_false] at ho2
  rcases ho2 with rfl | rfl | rfl | rfl | rfl | rfl | rfl | rfl | rfl | rfl | rfl | rfl
  · rw [txt_pieces hpc2]; exact .inl rfl
  · rw [anc_pieces hpc2]; exact .inr ⟨e, hel, rfl⟩
  · rw [txt_pieces hpc2]; exact .inl rfl
  · rw [txt_pieces hpc2]; exact .inl rfl
  · rw [txt_pieces hpc2]; exact .inl rfl
  · rcases ite_pieces hpc2 with ⟨-, h2⟩ | ⟨-, h2⟩
    · rcases mem_seq_pieces h2 with h3 | h3
      · obtain ⟨s, rfl⟩ := hk_pieces h3; exact .inl rfl
      · rw [txt_pieces h3]; exact .inl rfl
    · simp [nilOut] at h2
  · rw [txt_pieces hpc2]; exact .inl rfl
  · rcases mem_seq_pieces hpc2 with h3 | h3
    · obtain ⟨s, rfl⟩ := hk_pieces h3; exact .inl rfl
    · rw [txt_pieces h3]; exact .inl rfl
  · rcases ite_pieces hpc2 with ⟨-, h2⟩ | ⟨-, h2⟩
    · obtain ⟨o3, ho3, hpc3⟩ := mem_seqAll h2
      simp only [List.mem_cons, List.not_mem_nil, or_false] at ho3
      rcases ho3 with rfl | rfl
      · rw [txt_pieces hpc3]; exact .inl rfl
      · rw [txt_pieces hpc3]; exact .inl rfl
    · simp [nilOut] at h2
  · rw [txt_pieces hpc2]; exact .inl rfl
  · rw [txt_pieces hpc2]; exact .inl rfl
  · rw [txt_pieces hpc2]; exact .inl rfl

theorem navSection_pieces {p : DocPackage} {exs : Examples'} {pc : Piece}
    (h : pc ∈ (navSection p exs).pieces) : pc.kindOf = none := by
  unfold navSection at h
  rcases ite_pieces h with ⟨-, h1⟩ | ⟨-, h1⟩
  · obtain ⟨o, ho, hpc⟩ := mem_seqAll h1
    simp only [List.mem_cons, List.not_mem_nil, or_false] at ho
    rcases ho with rfl | rfl | rfl | rfl | rfl
    · rw [txt_pieces hpc]; rfl
    · rcases ite_pieces hpc with ⟨-, h2⟩ | ⟨-, h2⟩
      · rw [txt_pieces h2]; rfl
      · simp [nilOut] at h2
    · rcases ite_pieces hpc with ⟨-, h2⟩ | ⟨-, h2⟩
      · rw [txt_pieces h2]; rfl
      · simp [nilOut] at h2
    · rcases ite_pieces hpc with ⟨-, h2⟩ | ⟨-, h2⟩
      · rw [txt_pieces h2]; rfl
      · simp [nilOut] at h2
    · rw [txt_pieces hpc]; rfl
  · simp [nilOut] at h1

theorem overviewSection_pieces {r : Hooks} {p : DocPackage} {exs : Examples'}
    {pc : Piece} (h : pc ∈ (overviewSection r p exs).pieces) :
    pc.kindOf = none ∨ pc = .anchor .overview "pkg-overview" ∨
      ∃ e ∈ exs.Map "", pc = .anchor .exampleDetails e.ID := by
  unfold overviewSection at h
  rcases ite_pieces h with ⟨-, h1⟩ | ⟨-, h1⟩
  · obtain ⟨o, ho, hpc⟩ := mem_seqAll h1
    simp only [List.mem_cons, List.not_mem_nil, or_false] at ho
    rcases ho with rfl | rfl | rfl | rfl | rfl
    · rw [txt_pieces hpc]; exact .inl rfl
    · rw [anc_pieces hpc]; exact .inr (.inl rfl)
    · rw [txt_pieces hpc]; exact .inl rfl
    · rcases mem_seq_pieces hpc with h2 | h2
      · obtain ⟨s, rfl⟩ := hk_pieces h2; exact .inl rfl
      · rw [txt_pieces h2]; exact .inl rfl
    · rcases exampleSection_pieces hpc with h2 | h2
      · exact .inl h2
      · exact .inr (.inr h2)
  · simp [nilOut] at h1

theorem indexEntryFunc_pieces {r : Hooks} {f : DocFunc} {pc : Piece}
    (h : pc ∈ (indexEntryFunc r f).pieces) : pc.kindOf = none := by
  obtain ⟨o, ho, hpc⟩ := mem_seqAll h
  simp only [List.mem_cons, List.not_mem_nil, or_false] at ho
  rcases ho with rfl | rfl | rfl
  · rw [txt_pieces hpc]; rfl
  · obtain ⟨s, rfl⟩ := hk_pieces hpc; rfl
  · rw [txt_pieces hpc]; rfl

theorem indexEntryType_pieces {r : Hooks} {t : DocType} {pc : Piece}
    (h : pc ∈ (indexEntryType r t).pieces) : pc.kindOf = none := by
  obtain ⟨o, ho, hpc⟩ := mem_seqAll h
  simp only [List.mem_cons, List.not_mem_nil, or_false] at ho
  rcases ho with rfl | rfl | rfl
  · rw [txt_pieces hpc]; rfl
  · rcases ite_pieces hpc with ⟨-, h2⟩ | ⟨-, h2⟩
    · obtain ⟨o2, ho2, hpc2⟩ := mem_seqAll h2
      simp only [List.mem_cons, List.not_mem_nil, or_false] at ho2
      rcases ho2 with rfl | rfl | rfl
      · rw [txt_pieces hpc2]; rfl
      · obtain ⟨o3, ho3, hpc3⟩ := mem_seqAll hpc2
        rw [List.mem_map] at ho3
        obtain ⟨f, -, rfl⟩ := ho3
        exact indexEntryFunc_pieces hpc3
      · rw [txt_pieces hpc2]; rfl
    · simp [nilOut] at h2
  · rcases ite_pieces hpc with ⟨-, h2⟩ | ⟨-, h2⟩
    · obtain ⟨o2, ho2, hpc2⟩ := mem_seqAll h2
      simp only [List.mem_cons, List.not_mem_nil, or_false] at ho2
      rcases ho2 with rfl | rfl | rfl
      · rw [txt_pieces hpc2]; rfl
      · obtain ⟨o3, ho3, hpc3⟩ := mem_seqAll hpc2
        rw [List.mem_map] at ho3
        obtain ⟨m, -, rfl⟩ := ho3
        obtain ⟨o4, ho4, hpc4⟩ := mem_seqAll hpc3
        simp only [List.mem_cons, List.not_mem_nil, or_false] at ho4
        rcases ho4 with rfl | rfl | rfl
        · rw [txt_pieces hpc4]; rfl
        · obtain ⟨s, rfl⟩ := hk_pieces hpc4; rfl
        · rw [txt_pieces hpc4]; rfl
      · rw [txt_pieces hpc2]; rfl
    · simp [nilOut] at h2

theorem indexSection_pieces {r : Hooks} {p : DocPackage} {pc : Piece}
    (h : pc ∈ (indexSection r p).pieces) :
    pc.kindOf = none ∨ pc = .anchor .index "pkg-index" := by
  obtain ⟨o, ho, hpc⟩ := mem_seqAll h
  simp only [List.mem_cons, List.not_mem_nil, or_false] at ho
  rcases ho with rfl | rfl | rfl | rfl | rfl | rfl | rfl | rfl | rfl | rfl
  · rw [txt_pieces hpc]; exact .inl rfl
  · rw [anc_pieces hpc]; exact .inr rfl
  · rw [txt_pieces hpc]; exact .inl rfl
  · rw [txt_pieces hpc]; exact .inl rfl
  · rcases ite_pieces hpc with ⟨-, h2⟩ | ⟨-, h2⟩
    · rw [txt_pieces h2]; exact .inl rfl
    · simp [nilOut] at h2
  · rcases ite_pieces hpc with ⟨-, h2⟩ | ⟨-, h2⟩
    · rw [txt_pieces h2]; exact .inl rfl
    · simp [nilOut] at h2
  · obtain ⟨o2, ho2, hpc2⟩ := mem_seqAll hpc
    rw [List.mem_map] at ho2
    obtain ⟨f, -, rfl⟩ := ho2
    exact .inl (indexEntryFunc_pieces hpc2)
  · obtain ⟨o2, ho2, hpc2⟩ := mem_seqAll hpc
    rw [List.mem_map] at ho2
    obtain ⟨t, -, rfl⟩ := ho2
    exact .inl (indexEntryType_pieces hpc2)
  · obtain ⟨o2, ho2, hpc2⟩ := mem_seqAll hpc
    rw [List.mem_map] at ho2
    obtain ⟨n, -, rfl⟩ := ho2
    rw [txt_pieces hpc2]; exact .inl rfl
  · rw [txt_pieces hpc]; exact .inl rfl

theorem examplesListSection_pieces {exs : Examples'} {pc : Piece}
    (h : pc ∈ (examplesListSection exs).pieces) :
    pc.kindOf = none ∨
      (exs.List ≠ [] ∧ pc = .anchor .examplesHdr "pkg-examples") := by
  unfold examplesListSection at h
  rcases ite_pieces h with ⟨hne, h1⟩ | ⟨-, h1⟩
  · obtain ⟨o, ho, hpc⟩ := mem_seqAll h1
    simp only [List.mem_cons, List.not_mem_nil, or_false] at ho
    rcases ho with rfl | rfl | rfl | rfl | rfl | rfl
    · rw [txt_pieces hpc]; exact .inl rfl
    · rw [anc_pieces hpc]; exact .inr ⟨hne, rfl⟩
    · rw [txt_pieces hpc]; exact .inl rfl
    · rw [txt_pieces hpc]; exact .inl rfl
    · obtain ⟨o2, ho2, hpc2⟩ := mem_seqAll hpc
      rw [List.mem_map] at ho2
      obtain ⟨e, -, rfl⟩ := ho2
      rw [txt_pieces hpc2]; exact .inl rfl
    · rw [txt_pieces hpc]; exact .inl rfl
  · simp [nilOut] at h1

theorem valueBody_pieces {r : Hooks} {v : DocValue} {pc : Piece}
    (h : pc ∈ (valueBody r v).pieces) : pc.kindOf = none := by
  rcases mem_seq_pieces h with h1 | h1
  · obtain ⟨s, rfl⟩ := declOut_pieces h1; rfl
  · rw [txt_pieces h1]; rfl

theorem funcBody_pieces {r : Hooks} {slf : String → String} {exs : Examples'}
    {f : DocFunc} {pc : Piece} (h : pc ∈ (funcBody r slf exs f).pieces) :
    pc.kindOf = none ∨ pc.kindOf = some .decl ∨
      pc.kindOf = some .exampleDetails := by
  obtain ⟨o, ho, hpc⟩ := mem_seqAll h
  simp only [List.mem_cons, List.not_mem_nil, or_false] at ho
  rcases ho with rfl | rfl | rfl | rfl | rfl | rfl
  · rw [txt_pieces hpc]; exact .inl rfl
  · rw [anc_pieces hpc]; exact .inr (.inl rfl)
  · rw [txt_pieces hpc]; exact .inl rfl
  · obtain ⟨s, rfl⟩ := declOut_pieces hpc; exact .inl rfl
  · rw [txt_pieces hpc]; exact .inl rfl
  · rcases exampleSection_pieces hpc with h2 | ⟨e, -, rfl⟩
    · exact .inl h2
    · exact .inr (.inr rfl)

theorem methodBody_pieces {r : Hooks} {slf : String → String} {exs : Examples'}
    {tname : String} {m : DocFunc} {pc : Piece}
    (h : pc ∈ (methodBody r slf exs tname m).pieces) :
    pc.kindOf = none ∨ pc.kindOf = some .decl ∨
      pc.kindOf = some .exampleDetails := by
  obtain ⟨o, ho, hpc⟩ := mem_seqAll h
  simp only [List.mem_cons, List.not_mem_nil, or_false] at ho
  rcases ho with rfl | rfl | rfl | rfl | rfl | rfl
  · rw [txt_pieces hpc]; exact .inl rfl
  · rw [anc_pieces hpc]; exact .inr (.inl rfl)
  · rw [txt_pieces hpc]; exact .inl rfl
  · obtain ⟨s, rfl⟩ := declOut_pieces hpc; exact .inl rfl
  · rw [txt_pieces hpc]; exact .inl rfl
  · rcases exampleSection_pieces hpc with h2 | ⟨e, -, rfl⟩
    · exact .inl h2
    · exact .inr (.inr rfl)

theorem typeBody_pieces {r : Hooks} {slf : String → String} {exs : Examples'}
    {t : DocType} {pc : Piece} (h : pc ∈ (typeBody r slf exs t).pieces) :
    pc.kindOf = none ∨ pc.kindOf = some .decl ∨
      pc.kindOf = some .exampleDetails := by
  obtain ⟨o, ho, hpc⟩ := mem_seqAll h
  simp only [List.mem_cons, List.not_mem_nil, or_false] at ho
  rcases ho with rfl | rfl | rfl | rfl | rfl | rfl | rfl | rfl | rfl | rfl
  · rw [txt_pieces hpc]; exact .inl rfl
  · rw [anc_pieces hpc]; exact .inr (.inl rfl)
  · rw [txt_pieces hpc]; exact .inl rfl
  · obtain ⟨s, rfl⟩ := declOut_pieces hpc; exact .inl rfl
  · rw [txt_pieces hpc]; exact .inl rfl
  · rcases exampleSection_pieces hpc with h2 | ⟨e, -, rfl⟩
    · exact .inl h2
    · exact .inr (.inr rfl)
  · obtain ⟨o2, ho2, hpc2⟩ := mem_seqAll hpc
    rw [List.mem_map] at ho2
    obtain ⟨v, -, rfl⟩ := ho2
    exact .inl (valueBody_pieces hpc2)
  · obtain ⟨o2, ho2, hpc2⟩ := mem_seqAll hpc
    rw [List.mem_map] at ho2
    obtain ⟨v, -, rfl⟩ := ho2
    exact .inl (valueBody_pieces hpc2)
  · obtain ⟨o2, ho2, hpc2⟩ := mem_seqAll hpc
    rw [List.mem_map] at ho2
    obtain ⟨f, -, rfl⟩ := ho2
    exact funcBody_pieces hpc2
  · obtain ⟨o2, ho2, hpc2⟩ := mem_seqAll hpc
    rw [List.mem_map] at ho2
    obtain ⟨m, -, rfl⟩ := ho2
    exact methodBody_pieces hpc2

theorem declSection_pieces {r : Hooks} {slf : String → String}
    {p : DocPackage} {exs : Examples'} {pc : Piece}
    (h : pc ∈ (declSection r slf p exs).pieces) :
    (p.Consts ≠ [] ∨ p.Vars ≠ [] ∨ p.Funcs ≠ [] ∨ p.Types ≠ []) ∧
    (pc.kindOf = none ∨ pc.kindOf = some .index ∨
      pc.kindOf = some .constantsHdr ∨ pc.kindOf = some .variablesHdr ∨
      pc.kindOf = some .decl ∨ pc.kindOf = some .exampleDetails ∨
      (exs.List ≠ [] ∧ pc = .anchor .examplesHdr "pkg-examples")) := by
  unfold declSection at h
  rcases ite_pieces h with ⟨hg, h1⟩ | ⟨-, h1⟩
  · refine ⟨hg, ?_⟩
    obtain ⟨o, ho, hpc⟩ := mem_seqAll h1
    simp only [List.mem_cons, List.not_mem_nil, or_false] at ho
    rcases ho with rfl | rfl | rfl | rfl | rfl | rfl | rfl | rfl
    · rcases indexSection_pieces hpc with h2 | rfl
      · exact .inl h2
      · exact .inr (.inl rfl)
    · rcases examplesListSection_pieces hpc with h2 | h2
      · exact .inl h2
      · exact .inr (.inr (.inr (.inr (.inr (.inr h2)))))
    · rcases ite_pieces hpc with ⟨-, h2⟩ | ⟨-, h2⟩
      · obtain ⟨o2, ho2, hpc2⟩ := mem_seqAll h2
        simp only [List.mem_cons, List.not_mem_nil, or_false] at ho2
        rcases ho2 with rfl | rfl | rfl
        · rw [txt_pieces hpc2]; exact .inl rfl
        · rw [anc_pieces hpc2]; exact .inr (.inr (.inl rfl))
        · rw [txt_pieces hpc2]; exact .inl rfl
      · simp [nilOut] at h2
    · obtain ⟨o2, ho2, hpc2⟩ := mem_seqAll hpc
      rw [List.mem_map] at ho2
      obtain ⟨v, -, rfl⟩ := ho2
      exact .inl (valueBody_pieces hpc2)
    · rcases ite_pieces hpc with ⟨-, h2⟩ | ⟨-, h2⟩
      · obtain ⟨o2, ho2, hpc2⟩ := mem_seqAll h2
        simp only [List.mem_cons, List.not_mem_nil, or_false] at ho2
        rcases ho2 with rfl | rfl | rfl
        · rw [txt_pieces hpc2]; exact .inl rfl
        · rw [anc_pieces hpc2]; exact .inr (.inr (.inr (.inl rfl)))
        · rw [txt_pieces hpc2]; exact .inl rfl
      · simp [nilOut] at h2
    · obtain ⟨o2, ho2, hpc2⟩ := mem_seqAll hpc
      rw [List.mem_map] at ho2
      obtain ⟨v, -, rfl⟩ := ho2
      exact .inl (valueBody_pieces hpc2)
    · obtain ⟨o2, ho2, hpc2⟩ := mem_seqAll hpc
      rw [List.mem_map] at ho2
      obtain ⟨f, -, rfl⟩ := ho2
      rcases funcBody_pieces hpc2 with h2 | h2 | h2
      · exact .inl h2
      · exact .inr (.inr (.inr (.inr (.inl h2))))
      · exact .inr (.inr (.inr (.inr (.inr (.inl h2)))))
    · obtain ⟨o2, ho2, hpc2⟩ := mem_seqAll hpc
      rw [List.mem_map] at ho2
      obtain ⟨t, -, rfl⟩ := ho2
      rcases typeBody_pieces hpc2 with h2 | h2 | h2
      · exact .inl h2
      · exact .inr (.inr (.inr (.inr (.inl h2))))
      · exact .inr (.inr (.inr (.inr (.inr (.inl h2)))))
  · simp [nilOut] at h1

theorem noteBody_pieces {r : Hooks} {n : String × List DocNote} {pc : Piece}
    (h : pc ∈ (noteBody r n).pieces) :
    pc.kindOf = none ∨ pc.kindOf = some .note := by
  obtain ⟨o, ho, hpc⟩ := mem_seqAll h
  simp only [List.mem_cons, List.not_mem_nil, or_false] at ho
  rcases ho with rfl | rfl | rfl | rfl | rfl | rfl
  · rw [txt_pieces hpc]; exact .inl rfl
  · rw [anc_pieces hpc]; exact .inr rfl
  · rw [txt_pieces hpc]; exact .inl rfl
  · rw [txt_pieces hpc]; exact .inl rfl
  · obtain ⟨o2, ho2, hpc2⟩ := mem_seqAll hpc
    rw [List.mem_map] at ho2
    obtain ⟨v, -, rfl⟩ := ho2
    obtain ⟨o3, ho3, hpc3⟩ := mem_seqAll hpc2
    simp only [List.mem_cons, List.not_mem_nil, or_false] at ho3
    rcases ho3 with rfl | rfl | rfl
    · rw [txt_pieces hpc3]; exact .inl rfl
    · obtain ⟨s, rfl⟩ := hk_pieces hpc3; exact .inl rfl
    · rw [txt_pieces hpc3]; exact .inl rfl
  · rw [txt_pieces hpc]; exact .inl rfl

theorem notesSection_pieces {r : Hooks} {p : DocPackage} {pc : Piece}
    (h : pc ∈ (notesSection r p).pieces) :
    pc.kindOf = none ∨ pc.kindOf = some .note := by
  obtain ⟨o, ho, hpc⟩ := mem_seqAll h
  rw [List.mem_map] at ho
  obtain ⟨n, -, rfl⟩ := ho
  exact noteBody_pieces hpc

theorem htmlPackageExec_pieces {r : Hooks} {slf : String → String}
    {p : DocPackage} {exs : Examples'} {pc : Piece}
    (h : pc ∈ (htmlPackageExec r slf p exs).pieces) :
    pc ∈ (navSection p exs).pieces ∨ pc ∈ (overviewSection r p exs).pieces ∨
    pc ∈ (declSection r slf p exs).pieces ∨ pc ∈ (notesSection r p).pieces := by
  obtain ⟨o, ho, hpc⟩ := mem_seqAll h
  simp only [List.mem_cons, List.not_mem_nil, or_false] at ho
  rcases ho with rfl | rfl | rfl | rfl
  · exact .inl hpc
  · exact .inr (.inl hpc)
  · exact .inr (.inr (.inl hpc))
  · exact .inr (.inr (.inr hpc))

/-- C5: for a command package (`Name = "main"`), `Render` operates on a
copy with constants, variables, functions, types and examples cleared
while overview prose and notes are retained (rendering the original model
and rendering the cleared copy coincide, and the cleared copy's fields
are as stated), and the rendered output contains no declaration anchors
and no example anchors.  The caller's model value itself is never
modified: the embedding's `clearForMain` builds a fresh record and `p` is
untouched. -/
theorem Render_main_suppression (r : Hooks) (p : DocPackage)
    (opt : RenderOptions) (h : p.Name = "main") :
    Render r p opt = Render r (clearForMain p) opt ∧
    (clearForMain p).Doc = p.Doc ∧ (clearForMain p).Notes = p.Notes ∧
    (clearForMain p).Name = p.Name ∧
    (clearForMain p).Consts = [] ∧ (clearForMain p).Vars = [] ∧
    (clearForMain p).Funcs = [] ∧ (clearForMain p).Types = [] ∧
    (clearForMain p).Examples = [] ∧
    (∀ pc ∈ (renderExec r p opt).pieces,
      pc.kindOf ≠ some .decl ∧ pc.kindOf ≠ some .exampleDetails) := by
  have hrp : renderedPackage p = clearForMain p := by
    unfold renderedPackage; rw [if_pos h]
  have hrp2 : renderedPackage (clearForMain p) = clearForMain p := by
    unfold renderedPackage
    rw [if_pos (show (clearForMain p).Name = "main" from h)]
    rfl
  have hexec : renderExec r p opt = renderExec r (clearForMain p) opt := by
    unfold renderExec; rw [hrp, hrp2]
  refine ⟨?_, rfl, rfl, rfl, rfl, rfl, rfl, rfl, rfl, ?_⟩
  · have hrem : renderRemain r p opt = renderRemain r (clearForMain p) opt := by
      unfold renderRemain; rw [hexec]
    have h1 : Render r p opt =
        if renderRemain r p opt < 0 then
          (.error .tooLarge : Except RenderError String)
        else match (renderExec r p opt).err with
          | some e => .error (.renderFailure e)
          | none => .ok (flattenPieces (renderExec r p opt).pieces) := rfl
    have h2 : Render r (clearForMain p) opt =
        if renderRemain r (clearForMain p) opt < 0 then
          (.error .tooLarge : Except RenderError String)
        else match (renderExec r (clearForMain p) opt).err with
          | some e => .error (.renderFailure e)
          | none => .ok (flattenPieces
              (renderExec r (clearForMain p) opt).pieces) := rfl
    rw [h1, h2, hrem, hexec]
  · intro pc hpc
    rw [show renderExec r p opt = htmlPackageExec r opt.SourceLinkFunc
        (clearForMain p) (collectExamples (clearForMain p)) from by
      unfold renderExec; rw [hrp]] at hpc
    have hMap : (collectExamples (clearForMain p)).Map "" =
        ([] : List Example') := rfl
    rcases htmlPackageExec_pieces hpc with hn | hov | hd | hnt
    · rw [navSection_pieces hn]; exact ⟨by simp, by simp⟩
    · rcases overviewSection_pieces hov with hk0 | rfl | ⟨e, he, rfl⟩
      · rw [hk0]; exact ⟨by simp, by simp⟩
      · exact ⟨by simp [Piece.kindOf], by simp [Piece.kindOf]⟩
      · rw [hMap] at he; simp at he
    · obtain ⟨hg, -⟩ := declSection_pieces hd
      rcases hg with hg | hg | hg | hg <;> simp [clearForMain] at hg
    · rcases notesSection_pieces hnt with hk0 | hk0 <;> rw [hk0]
      · exact ⟨by simp, by simp⟩
      · exact ⟨by simp, by simp⟩

/-- Witness for C5: a concrete command package with declarations and
examples everywhere renders like its cleared copy, and its output pieces
carry no declaration or example anchors. -/
theorem Render_main_suppression_witness :
    Render hooksOK pkgMain optDefault =
      Render hooksOK (clearForMain pkgMain) optDefault ∧
    (clearForMain pkgMain).Doc = pkgMain.Doc ∧
    (clearForMain pkgMain).Funcs = [] :=
  ⟨(Render_main_suppression hooksOK pkgMain optDefault rfl).1,
   (Render_main_suppression hooksOK pkgMain optDefault rfl).2.1,
   (Render_main_suppression hooksOK pkgMain optDefault rfl).2.2.2.2.2.2.1⟩

theorem mem_seqAll_of_mem {l : List ExecOut} (hok : (seqAll l).err = none)
    (o : ExecOut) (ho : o ∈ l) {pc : Piece} (hpc : pc ∈ o.pieces) :
    pc ∈ (seqAll l).pieces := by
  obtain ⟨-, hp⟩ := seqAll_err_none hok
  rw [hp]
  exact List.mem_flatMap.mpr ⟨o, ho, hpc⟩

theorem foldl_seq_txts {α : Type} (f : α → String) (l : List α) :
    ∀ ps : List Piece,
      (l.map (fun e => txt (f e))).foldl ExecOut.seq ⟨ps, none⟩ =
        ⟨ps ++ l.map (fun e => Piece.text (f e)), none⟩ := by
  induction l with
  | nil => intro ps; simp
  | cons x t ih =>
    intro ps
    show (t.map (fun e => txt (f e))).foldl ExecOut.seq
      (ExecOut.seq ⟨ps, none⟩ (txt (f x))) = _
    rw [show ExecOut.seq ⟨ps, none⟩ (txt (f x)) =
      ⟨ps ++ [Piece.text (f x)], none⟩ from rfl, ih]
    simp

theorem seqAll_map_txt {α : Type} (f : α → String) (l : List α) :
    seqAll (l.map (fun e => txt (f e))) =
      ⟨l.map (fun e => Piece.text (f e)), none⟩ := by
  unfold seqAll
  simpa [nilOut] using foldl_seq_txts f l []

theorem examplesAnchor_mem_declSection {r : Hooks} {slf : String → String}
    {p : DocPackage} {exs : Examples'}
    (hg : p.Consts ≠ [] ∨ p.Vars ≠ [] ∨ p.Funcs ≠ [] ∨ p.Types ≠ [])
    (hne : exs.List ≠ [])
    (hok : (declSection r slf p exs).err = none) :
    Piece.anchor .examplesHdr "pkg-examples" ∈
      (declSection r slf p exs).pieces := by
  unfold declSection at hok ⊢
  rw [if_pos hg] at hok ⊢
  have hel_err : (examplesListSection exs).err = none :=
    (seqAll_err_none hok).1 _ (by simp)
  refine mem_seqAll_of_mem hok (examplesListSection exs) (by simp) ?_
  unfold examplesListSection at hel_err ⊢
  rw [if_pos hne] at hel_err ⊢
  exact mem_seqAll_of_mem hel_err (anc .examplesHdr "pkg-examples")
    (by simp) (by simp [anc])

/-- C7 counterexample: a package with one (package-level) example and no
constants, variables, functions or types renders successfully, yet its
output contains no examples-list section — the claim's "if and only if at
least one example exists" fails because the template nests the
examples-list block inside the declarations guard. -/
theorem examplesList_counterexample :
    (collectExamples pkgExamplesOnly).List ≠ [] ∧
    pkgExamplesOnly.Consts = [] ∧ pkgExamplesOnly.Vars = [] ∧
    pkgExamplesOnly.Funcs = [] ∧ pkgExamplesOnly.Types = [] ∧
    (renderExec hooksOK pkgExamplesOnly optDefault).err = none ∧
    Piece.anchor .examplesHdr "pkg-examples" ∉
      (renderExec hooksOK pkgExamplesOnly optDefault).pieces :=
  ⟨by decide, rfl, rfl, rfl, rfl, by decide, by decide⟩

/-- C7 (amended): in a successful render the document contains the
examples-list section iff at least one example exists in the index AND
the rendered package has at least one constant, variable, function or
type (the examples block is nested inside the declarations guard); when
present, the section lists one entry per indexed example, labelled by its
`ParentID` (or `"Package"` when empty) followed by its suffix in
parentheses when non-empty. -/
theorem examplesList_section_iff (r : Hooks) (p : DocPackage)
    (opt : RenderOptions) (hok : (renderExec r p opt).err = none) :
    (Piece.anchor .examplesHdr "pkg-examples" ∈ (renderExec r p opt).pieces ↔
      (((renderedPackage p).Consts ≠ [] ∨ (renderedPackage p).Vars ≠ [] ∨
        (renderedPackage p).Funcs ≠ [] ∨ (renderedPackage p).Types ≠ []) ∧
       (collectExamples (renderedPackage p)).List ≠ [])) ∧
    (∀ exs : Examples', exs.List ≠ [] → (examplesListSection exs).pieces =
      [.text "<h3 ", .anchor .examplesHdr "pkg-examples",
       .text ">Examples <a href=\"#pkg-examples\">¶</a></h3>\n",
       .text "<ul>\n"] ++
      exs.List.map (fun e => .text ("<li><a href=\"#" ++ e.ID ++ "\">" ++
        (if e.ParentID = "" then "Package" else e.ParentID) ++
        (if e.Suffix ≠ "" then " (" ++ e.Suffix ++ ")" else "") ++
        "</a></li>\n")) ++
      [.text "</ul>\n"]) := by
  have hok' : (seqAll [navSection (renderedPackage p)
      (collectExamples (renderedPackage p)),
      overviewSection r (renderedPackage p)
        (collectExamples (renderedPackage p)),
      declSection r opt.SourceLinkFunc (renderedPackage p)
        (collectExamples (renderedPackage p)),
      notesSection r (renderedPackage p)]).err = none := hok
  constructor
  · constructor
    · intro hmem
      rcases htmlPackageExec_pieces hmem with hn | hov | hd | hnt
      · have h0 := navSection_pieces hn
        simp [Piece.kindOf] at h0
      · rcases overviewSection_pieces hov with h0 | h0 | ⟨e, -, h0⟩
        · simp [Piece.kindOf] at h0
        · simp at h0
        · simp at h0
      · obtain ⟨hg, hc⟩ := declSection_pieces hd
        rcases hc with h0 | h0 | h0 | h0 | h0 | h0 | ⟨hne, -⟩
        · simp [Piece.kindOf] at h0
        · simp [Piece.kindOf] at h0
        · simp [Piece.kindOf] at h0
        · simp [Piece.kindOf] at h0
        · simp [Piece.kindOf] at h0
        · simp [Piece.kindOf] at h0
        · exact ⟨hg, hne⟩
      · rcases notesSection_pieces hnt with h0 | h0 <;>
          simp [Piece.kindOf] at h0
    · rintro ⟨hg, hne⟩
      have hds_err : (declSection r opt.SourceLinkFunc (renderedPackage p)
          (collectExamples (renderedPackage p))).err = none :=
        (seqAll_err_none hok').1 _ (by simp)
      have hmem := examplesAnchor_mem_declSection hg hne hds_err
      exact mem_seqAll_of_mem hok'
        (declSection r opt.SourceLinkFunc (renderedPackage p)
          (collectExamples (renderedPackage p))) (by simp) hmem
  · intro exs hne
    unfold examplesListSection
    rw [if_pos hne]
    rw [show seqAll (exs.List.map (fun e => txt (exampleEntry e))) =
      ⟨exs.List.map (fun e => Piece.text (exampleEntry e)), none⟩ from
      seqAll_map_txt exampleEntry exs.List]
    simp [seqAll, ExecOut.seq, txt, anc, nilOut, exampleEntry]

/-- Witness for C7 (amended): a package with a non-empty function list
and indexed examples does render the examples-list anchor. -/
theorem examplesList_section_iff_witness :
    Piece.anchor .examplesHdr "pkg-examples" ∈
      (renderExec hooksOK pkgFuncExample optDefault).pieces :=
  ((examplesList_section_iff hooksOK pkgFuncExample optDefault
    (by decide)).1).mpr ⟨by decide, by decide⟩

end Dochtml
